import Mathlib

/-!
Verification of the `chromium` crate: flat, `repr(C)` records mirroring
Rust's native fat references (`&[T]`, `&mut [T]`, `&str`, `&mut str`) and
growable buffers (`Vec<T>`, `String`).

Shallow embedding conventions:
* A raw address is a `Nat` (element-granular for typed slices, byte-granular
  for text); address `0` plays the role of the null pointer.
* Memory is a total function `Nat → α`; the contents of a contiguous view of
  length `l` at base `p` is the list `[m p, m (p+1), …, m (p+l-1)]`.
* Each Rust struct becomes a Lean structure holding exactly its non-phantom
  fields (`PhantomData` is zero-sized and erased).
* Each `From`/`Deref`/`DerefMut`/`Default`/`Clone` impl becomes its own
  definition translated from the corresponding source function.
* Alignments: `NonNull::<T>::dangling()` has address `align_of::<T>()`, a
  value Rust guarantees to be at least 1; the dangling address for `u8`
  (used by the text records) is `1`.
* The embedding fixes a 64-bit x86 target, matching the spec's layout table;
  the `cfg(target_arch)` SIMD impls of `StableLayout` are therefore present.
-/

namespace Chromium

/-- Typed memory: one element of `α` per address. -/
def Mem (α : Type) : Type := Nat → α

/-- The element list of the contiguous region `[p, p + l)` in memory `m`. -/
def sliceBytes {α : Type} (m : Mem α) (p l : Nat) : List α :=
  (List.range l).map fun i => m (p + i)

/-- A single store, as performed through a `&mut [T]` index write. -/
def writeElem {α : Type} (m : Mem α) (a : Nat) (v : α) : Mem α :=
  fun x => if x = a then v else m x

/-! ### Native Rust forms (the collaborators the records convert to/from) -/

/-- The fat pointer behind `&[T]` / `&mut [T]`: base address and length. -/
structure RustSlice (α : Type) where
  ptr : Nat
  len : Nat
  deriving Repr, DecidableEq

/-- The fat pointer behind `&str` / `&mut str`: byte address and byte length. -/
structure RustStr where
  ptr : Nat
  len : Nat
  deriving Repr, DecidableEq

/-- The triple behind `Vec<T>`: base address, length, capacity. -/
structure RustVec (α : Type) where
  ptr : Nat
  len : Nat
  cap : Nat
  deriving Repr, DecidableEq

/-- The triple behind `String`: byte address, byte length, capacity. -/
structure RustString where
  ptr : Nat
  len : Nat
  cap : Nat
  deriving Repr, DecidableEq

/-- `Vec::default()` = `Vec::new()`: dangling pointer (`align_of::<T>()`),
length 0, capacity 0. The alignment of the element type is passed in. -/
def RustVec.defaultVec (α : Type) (align : Nat) : RustVec α :=
  ⟨align, 0, 0⟩

/-- `String::default()` = `String::new()`: dangling byte pointer (address 1),
length 0, capacity 0. -/
def RustString.defaultString : RustString :=
  ⟨1, 0, 0⟩

/-- `Vec`'s `Deref`: the slice of the initialized prefix. -/
def RustVec.asSlice {α : Type} (v : RustVec α) : RustSlice α :=
  ⟨v.ptr, v.len⟩

/-- `String`'s `Deref`: the `&str` of the initialized prefix. -/
def RustString.asStr (s : RustString) : RustStr :=
  ⟨s.ptr, s.len⟩

/-! ### SharedSlice (src/shared_slice.rs) -/

/-- `SharedSlice<'a, T>`: `ptr: *const T`, `len: usize`
(the `PhantomData<&'a [T]>` field is zero-sized and erased).
`α` mirrors the element type parameter `T`. -/
structure SharedSlice (α : Type) where
  ptr : Nat
  len : Nat
  deriving Repr, DecidableEq

/-- `impl From<&'a [T]> for SharedSlice`: captures `sli.as_ptr()` and
`sli.len()`. -/
def SharedSlice.fromRust {α : Type} (sli : RustSlice α) : SharedSlice α :=
  ⟨sli.ptr, sli.len⟩

/-- `impl From<SharedSlice<'a, T>> for &'a [T]`:
`slice::from_raw_parts(shared.ptr, shared.len)`. -/
def SharedSlice.toRust {α : Type} (shared : SharedSlice α) : RustSlice α :=
  ⟨shared.ptr, shared.len⟩

/-- `impl Deref for SharedSlice`:
`slice::from_raw_parts(self.ptr, self.len)`. -/
def SharedSlice.derefSlice {α : Type} (c : SharedSlice α) : RustSlice α :=
  ⟨c.ptr, c.len⟩

/-- `impl Clone for SharedSlice`: `*self`. Defined for every element type
`α`, with no constraint on `α` (the source impl bounds `T` only by
`StableLayout`, never by `Clone`). -/
def SharedSlice.cloneRec {α : Type} (c : SharedSlice α) : SharedSlice α :=
  c

/-- `impl Default for SharedSlice`: length 0, pointer
`NonNull::dangling().as_ptr()`, i.e. the alignment of `T`. -/
def SharedSlice.defaultRec (α : Type) (align : Nat) : SharedSlice α :=
  ⟨align, 0⟩

/-! ### UniqueSlice (src/unique_slice.rs) -/

/-- `UniqueSlice<'a, T>`: `ptr: *mut T`, `len: usize` (phantom erased). -/
structure UniqueSlice (α : Type) where
  ptr : Nat
  len : Nat
  deriving Repr, DecidableEq

/-- `impl From<&'a mut [T]> for UniqueSlice`: captures `sli.as_mut_ptr()` and
`sli.len()`. -/
def UniqueSlice.fromRust {α : Type} (sli : RustSlice α) : UniqueSlice α :=
  ⟨sli.ptr, sli.len⟩

/-- `impl From<UniqueSlice<'a, T>> for &'a mut [T]`:
`slice::from_raw_parts_mut(unique.ptr, unique.len)`. -/
def UniqueSlice.toRust {α : Type} (unique : UniqueSlice α) : RustSlice α :=
  ⟨unique.ptr, unique.len⟩

/-- `impl Deref for UniqueSlice`:
`slice::from_raw_parts(self.ptr, self.len)`. -/
def UniqueSlice.derefSlice {α : Type} (u : UniqueSlice α) : RustSlice α :=
  ⟨u.ptr, u.len⟩

/-- `impl DerefMut for UniqueSlice`:
`slice::from_raw_parts_mut(self.ptr, self.len)`. -/
def UniqueSlice.derefMutSlice {α : Type} (u : UniqueSlice α) : RustSlice α :=
  ⟨u.ptr, u.len⟩

/-- `impl Default for UniqueSlice`: length 0, dangling pointer. -/
def UniqueSlice.defaultRec (α : Type) (align : Nat) : UniqueSlice α :=
  ⟨align, 0⟩

/-- An element store through `DerefMut`: `record[i] = v`. `deref_mut` takes
`&mut self` but writes only through the derived slice, so the record is
returned unchanged alongside the updated memory. -/
def UniqueSlice.writeAt {α : Type} (u : UniqueSlice α) (m : Mem α)
    (i : Nat) (v : α) : UniqueSlice α × Mem α :=
  (u, writeElem m (u.derefMutSlice.ptr + i) v)

/-! ### SharedStr (src/shared_str.rs) -/

/-- `SharedStr<'a>`: `ptr: *const u8`, `len: usize` (phantom erased).
Text memory is byte-granular: `Mem Nat` with byte values. -/
structure SharedStr where
  ptr : Nat
  len : Nat
  deriving Repr, DecidableEq

/-- `impl From<&'a str> for SharedStr`: captures `s.as_ptr()`, `s.len()`. -/
def SharedStr.fromRust (s : RustStr) : SharedStr :=
  ⟨s.ptr, s.len⟩

/-- `impl From<SharedStr<'a>> for &'a str`:
`str::from_utf8_unchecked(slice::from_raw_parts(ptr, len))` — no
re-validation, a pure (ptr, len) reassembly. -/
def SharedStr.toRust (c : SharedStr) : RustStr :=
  ⟨c.ptr, c.len⟩

/-- `impl Deref for SharedStr`. -/
def SharedStr.derefStr (c : SharedStr) : RustStr :=
  ⟨c.ptr, c.len⟩

/-- `impl Clone for SharedStr`: `*self`. -/
def SharedStr.cloneRec (c : SharedStr) : SharedStr :=
  c

/-- `impl Default for SharedStr`: length 0, `NonNull::<u8>::dangling()`,
i.e. address 1. -/
def SharedStr.defaultRec : SharedStr :=
  ⟨1, 0⟩

/-! ### UniqueStr (src/unique_str.rs) -/

/-- `UniqueStr<'a>`: `ptr: *mut u8`, `len: usize` (phantom erased). -/
structure UniqueStr where
  ptr : Nat
  len : Nat
  deriving Repr, DecidableEq

/-- `impl From<&'a mut str> for UniqueStr`: captures `s.as_mut_ptr()`,
`s.len()`. -/
def UniqueStr.fromRust (s : RustStr) : UniqueStr :=
  ⟨s.ptr, s.len⟩

/-- `impl From<UniqueStr<'a>> for &'a mut str`. -/
def UniqueStr.toRust (u : UniqueStr) : RustStr :=
  ⟨u.ptr, u.len⟩

/-- `impl Deref for UniqueStr`. -/
def UniqueStr.derefStr (u : UniqueStr) : RustStr :=
  ⟨u.ptr, u.len⟩

/-- `impl DerefMut for UniqueStr`. -/
def UniqueStr.derefMutStr (u : UniqueStr) : RustStr :=
  ⟨u.ptr, u.len⟩

/-- `impl Clone for UniqueStr` (src/unique_str.rs, present in the source):
`*self`. -/
def UniqueStr.cloneRec (u : UniqueStr) : UniqueStr :=
  u

/-- `impl Default for UniqueStr`: length 0, dangling byte pointer. -/
def UniqueStr.defaultRec : UniqueStr :=
  ⟨1, 0⟩

/-- A byte store through `DerefMut` on a `UniqueStr`. -/
def UniqueStr.writeAt (u : UniqueStr) (m : Mem Nat) (i : Nat) (v : Nat) :
    UniqueStr × Mem Nat :=
  (u, writeElem m (u.derefMutStr.ptr + i) v)

/-! ### StableVec (src/stable_vec.rs) -/

/-- `StableVec<T>`: `ptr: *mut T`, `len: usize`, `cap: usize`. -/
structure StableVec (α : Type) where
  ptr : Nat
  len : Nat
  cap : Nat
  deriving Repr, DecidableEq

/-- `impl From<Vec<T>> for StableVec`: wraps the vec in `ManuallyDrop`
(suppressing its destructor) and captures `capacity()`, `len()`,
`as_mut_ptr()`. -/
def StableVec.fromVec {α : Type} (vec : RustVec α) : StableVec α :=
  ⟨vec.ptr, vec.len, vec.cap⟩

/-- `impl From<StableVec<T>> for Vec<T>`:
`Vec::from_raw_parts(sv.ptr, sv.len, sv.cap)`. -/
def StableVec.toVec {α : Type} (sv : StableVec α) : RustVec α :=
  ⟨sv.ptr, sv.len, sv.cap⟩

/-- `impl Deref for StableVec`:
`slice::from_raw_parts(self.ptr, self.len)`. -/
def StableVec.derefSlice {α : Type} (sv : StableVec α) : RustSlice α :=
  ⟨sv.ptr, sv.len⟩

/-- `impl DerefMut for StableVec`:
`slice::from_raw_parts_mut(self.ptr, self.len)`. -/
def StableVec.derefMutSlice {α : Type} (sv : StableVec α) : RustSlice α :=
  ⟨sv.ptr, sv.len⟩

/-- `impl Default for StableVec`: `Self::from(Vec::default())`. -/
def StableVec.defaultRec (α : Type) (align : Nat) : StableVec α :=
  StableVec.fromVec (RustVec.defaultVec α align)

/-- An element store through `DerefMut` on a `StableVec`. -/
def StableVec.writeAt {α : Type} (sv : StableVec α) (m : Mem α)
    (i : Nat) (v : α) : StableVec α × Mem α :=
  (sv, writeElem m (sv.derefMutSlice.ptr + i) v)

/-! ### StableString (src/stable_string.rs) -/

/-- `StableString`: `ptr: *mut u8`, `len: usize`, `cap: usize`. -/
structure StableString where
  ptr : Nat
  len : Nat
  cap : Nat
  deriving Repr, DecidableEq

/-- `impl From<String> for StableString`: `ManuallyDrop` wrap, then capture
`capacity()`, `len()`, `as_mut_ptr()`. -/
def StableString.fromString (s : RustString) : StableString :=
  ⟨s.ptr, s.len, s.cap⟩

/-- `impl From<StableString> for String`:
`String::from_raw_parts(sv.ptr, sv.len, sv.cap)` — no UTF-8 re-check. -/
def StableString.toString (sv : StableString) : RustString :=
  ⟨sv.ptr, sv.len, sv.cap⟩

/-- `impl Deref for StableString`. -/
def StableString.derefStr (sv : StableString) : RustStr :=
  ⟨sv.ptr, sv.len⟩

/-- `impl DerefMut for StableString`. -/
def StableString.derefMutStr (sv : StableString) : RustStr :=
  ⟨sv.ptr, sv.len⟩

/-- `impl Default for StableString`: `Self::from(String::default())`. -/
def StableString.defaultRec : StableString :=
  StableString.fromString RustString.defaultString

/-- A byte store through `DerefMut` on a `StableString`. -/
def StableString.writeAt (sv : StableString) (m : Mem Nat) (i : Nat)
    (v : Nat) : StableString × Mem Nat :=
  (sv, writeElem m (sv.derefMutStr.ptr + i) v)

/-! ### The StableLayout classifier (src/lib.rs)

The grammar of Rust types covered by the crate's `unsafe impl StableLayout`
clauses. Every type in this grammar is `Sized`, so the `T: Sized` side
condition on the reference/pointer impls is always met. -/

/-- Rust types appearing in the crate's `StableLayout` impl list. `option`
covers the `Option<...>` impls (which exist only for the `NonZero*` types,
references, `NonNull` and `Box`). `array t n` is `[T; N]`. The six SIMD
constructors are the `core::arch::x86_64` register types, present because
the embedding fixes a 64-bit x86 target. -/
inductive RustTy : Type where
  | u8 | u16 | u32 | u64 | usize
  | i8 | i16 | i32 | i64 | isize
  | f32 | f64
  | bool | char | unit
  | phantomData (t : RustTy)
  | wrapping (t : RustTy)
  | manuallyDrop (t : RustTy)
  | nonZeroU8 | nonZeroU16 | nonZeroU32 | nonZeroU64 | nonZeroUsize
  | nonZeroI8 | nonZeroI16 | nonZeroI32 | nonZeroI64 | nonZeroIsize
  | option (t : RustTy)
  | ref (t : RustTy)
  | refMut (t : RustTy)
  | constPtr (t : RustTy)
  | mutPtr (t : RustTy)
  | nonNull (t : RustTy)
  | unsafeCell (t : RustTy)
  | cell (t : RustTy)
  | box (t : RustTy)
  | array (t : RustTy) (n : Nat)
  | sharedSliceTy (t : RustTy)
  | uniqueSliceTy (t : RustTy)
  | sharedStrTy
  | uniqueStrTy
  | stableVecTy (t : RustTy)
  | stableStringTy
  | m128i | m128 | m128d | m256i | m256 | m256d
  deriving Repr

/-- The array lengths enumerated in the `impl_unsafe_marker_for_array!`
invocation: 0 through 32, then 48, 64, 96, 128, 256, 512, 1024, 2048,
4096. These are the ONLY lengths with a `StableLayout` impl for `[T; N]`. -/
def supportedArrayLens : List Nat :=
  [0, 1, 2, 3, 4, 5, 6, 7, 8, 9, 10, 11, 12, 13, 14, 15,
   16, 17, 18, 19, 20, 21, 22, 23, 24, 25, 26, 27, 28, 29, 30, 31, 32,
   48, 64, 96, 128, 256, 512, 1024, 2048, 4096]

/-- `T: StableLayout` holds exactly when the crate's (coherent,
syntax-directed) impl list derives it. Each match arm is one `unsafe impl`
clause of src/lib.rs (plus the per-record impls in the record modules). -/
def stableLayout : RustTy → Bool
  | .u8 | .u16 | .u32 | .u64 | .usize => true
  | .i8 | .i16 | .i32 | .i64 | .isize => true
  | .f32 | .f64 => true
  | .bool | .char | .unit => true
  | .phantomData t => stableLayout t
  | .wrapping t => stableLayout t
  | .manuallyDrop t => stableLayout t
  | .nonZeroU8 | .nonZeroU16 | .nonZeroU32 | .nonZeroU64 | .nonZeroUsize =>
      true
  | .nonZeroI8 | .nonZeroI16 | .nonZeroI32 | .nonZeroI64 | .nonZeroIsize =>
      true
  | .option t =>
      match t with
      | .nonZeroU8 | .nonZeroU16 | .nonZeroU32 | .nonZeroU64
      | .nonZeroUsize => true
      | .nonZeroI8 | .nonZeroI16 | .nonZeroI32 | .nonZeroI64
      | .nonZeroIsize => true
      | .ref t2 => stableLayout t2
      | .refMut t2 => stableLayout t2
      | .nonNull t2 => stableLayout t2
      | .box t2 => stableLayout t2
      | _ => false
  | .ref t => stableLayout t
  | .refMut t => stableLayout t
  | .constPtr t => stableLayout t
  | .mutPtr t => stableLayout t
  | .nonNull t => stableLayout t
  | .unsafeCell t => stableLayout t
  | .cell t => stableLayout t
  | .box t => stableLayout t
  | .array t n => supportedArrayLens.contains n && stableLayout t
  | .sharedSliceTy t => stableLayout t
  | .uniqueSliceTy t => stableLayout t
  | .sharedStrTy | .uniqueStrTy => true
  | .stableVecTy t => stableLayout t
  | .stableStringTy => true
  | .m128i | .m128 | .m128d | .m256i | .m256 | .m256d => true

/-! ### Record kinds and their Clone/Copy impls -/

/-- The six flat record kinds exported by the crate. -/
inductive RecordKind : Type where
  | sharedSlice | uniqueSlice | sharedStr | uniqueStr
  | stableVec | stableString
  deriving Repr, DecidableEq

/-- Which record kinds have an `impl Copy` in the source.
`SharedSlice` and `SharedStr` do; `UniqueSlice`, `StableVec` and
`StableString` do not; `UniqueStr` DOES (src/unique_str.rs has
`impl Copy for UniqueStr`). -/
def hasCopyImpl : RecordKind → Bool
  | .sharedSlice => true
  | .uniqueSlice => false
  | .sharedStr => true
  | .uniqueStr => true
  | .stableVec => false
  | .stableString => false

/-- Which record kinds have an `impl Clone` in the source; same set as
`hasCopyImpl` (each Clone impl is `*self`). -/
def hasCloneImpl : RecordKind → Bool
  | .sharedSlice => true
  | .uniqueSlice => false
  | .sharedStr => true
  | .uniqueStr => true
  | .stableVec => false
  | .stableString => false

/-! ### Drop semantics (for the leak / double-free claim)

A drop action is modelled by the list of base addresses of heap blocks it
deallocates. -/

/-- Dropping a native `Vec` deallocates its buffer when it has one
(capacity > 0); a capacity-0 vec holds only the dangling pointer and frees
nothing. -/
def RustVec.dropFrees {α : Type} (v : RustVec α) : List Nat :=
  if v.cap = 0 then [] else [v.ptr]

/-- Dropping a native `String`: same as its backing `Vec<u8>`. -/
def RustString.dropFrees (s : RustString) : List Nat :=
  if s.cap = 0 then [] else [s.ptr]

/-- Dropping `ManuallyDrop::new(vec)` — as happens to the consumed vec at
the end of `From<Vec<T>> for StableVec` — runs no destructor and frees
nothing. -/
def manuallyDropVecFrees {α : Type} (_v : RustVec α) : List Nat :=
  []

/-- Dropping `ManuallyDrop::new(s)` in `From<String> for StableString`. -/
def manuallyDropStringFrees (_s : RustString) : List Nat :=
  []

/-- `StableVec` has no `Drop` impl and owns no droppable fields (raw
pointer and two `usize`s), so discarding one frees nothing. -/
def StableVec.dropFrees {α : Type} (_sv : StableVec α) : List Nat :=
  []

/-- `StableString` has no `Drop` impl; discarding one frees nothing. -/
def StableString.dropFrees (_sv : StableString) : List Nat :=
  []

/-- All frees performed by the full sequence: move `v` into a `StableVec`
(the `ManuallyDrop`-wrapped original is dropped inert), convert the record
back into a `Vec`, and drop that `Vec`. -/
def StableVec.transferSeqFrees {α : Type} (v : RustVec α) : List Nat :=
  manuallyDropVecFrees v ++
    RustVec.dropFrees (StableVec.toVec (StableVec.fromVec v))

/-- The same sequence for `String` / `StableString`. -/
def StableString.transferSeqFrees (s : RustString) : List Nat :=
  manuallyDropStringFrees s ++
    RustString.dropFrees (StableString.toString (StableString.fromString s))

/-! ### Test-style equality of records (src/tests/test_to_from.rs)

The test suite compares records by `assert_eq!` on their dereferenced
views, i.e. element-wise view equality, never on raw pointers. -/

/-- The element list a `SharedSlice` denotes in memory `m` (its `Deref`
view). -/
def SharedSlice.viewList {α : Type} (m : Mem α) (c : SharedSlice α) :
    List α :=
  sliceBytes m c.derefSlice.ptr c.derefSlice.len

/-- The element list a `UniqueSlice` denotes in memory `m`. -/
def UniqueSlice.viewList {α : Type} (m : Mem α) (u : UniqueSlice α) :
    List α :=
  sliceBytes m u.derefSlice.ptr u.derefSlice.len

/-- The byte list a `SharedStr` denotes in byte memory `m`. -/
def SharedStr.viewList (m : Mem Nat) (c : SharedStr) : List Nat :=
  sliceBytes m c.derefStr.ptr c.derefStr.len

/-- The byte list a `UniqueStr` denotes in byte memory `m`. -/
def UniqueStr.viewList (m : Mem Nat) (u : UniqueStr) : List Nat :=
  sliceBytes m u.derefStr.ptr u.derefStr.len

/-- The element list a `StableVec` denotes in memory `m` (its initialized
prefix). -/
def StableVec.viewList {α : Type} (m : Mem α) (sv : StableVec α) :
    List α :=
  sliceBytes m sv.derefSlice.ptr sv.derefSlice.len

/-- The byte list a `StableString` denotes in byte memory `m`. -/
def StableString.viewList (m : Mem Nat) (sv : StableString) : List Nat :=
  sliceBytes m sv.derefStr.ptr sv.derefStr.len

/-- Record equality as the tests define it: equality of the dereferenced
views. -/
def SharedSlice.testEq {α : Type} (m : Mem α) (c1 c2 : SharedSlice α) :
    Prop :=
  SharedSlice.viewList m c1 = SharedSlice.viewList m c2

/-- Test-style equality for `UniqueSlice`. -/
def UniqueSlice.testEq {α : Type} (m : Mem α) (u1 u2 : UniqueSlice α) :
    Prop :=
  UniqueSlice.viewList m u1 = UniqueSlice.viewList m u2

/-- Test-style equality for `SharedStr`. -/
def SharedStr.testEq (m : Mem Nat) (c1 c2 : SharedStr) : Prop :=
  SharedStr.viewList m c1 = SharedStr.viewList m c2

/-- Test-style equality for `UniqueStr`. -/
def UniqueStr.testEq (m : Mem Nat) (u1 u2 : UniqueStr) : Prop :=
  UniqueStr.viewList m u1 = UniqueStr.viewList m u2

/-- Test-style equality for `StableVec`. -/
def StableVec.testEq {α : Type} (m : Mem α) (v1 v2 : StableVec α) : Prop :=
  StableVec.viewList m v1 = StableVec.viewList m v2

/-- Test-style equality for `StableString`. -/
def StableString.testEq (m : Mem Nat) (s1 s2 : StableString) : Prop :=
  StableString.viewList m s1 = StableString.viewList m s2

end Chromium

namespace Chromium

/-! ### Basic view lemmas -/

theorem length_sliceBytes {α : Type} (m : Mem α) (p l : Nat) :
    (sliceBytes m p l).length = l := by
  simp [sliceBytes]

theorem getElem_sliceBytes {α : Type} (m : Mem α) (p l i : Nat)
    (h : i < (sliceBytes m p l).length) :
    (sliceBytes m p l)[i] = m (p + i) := by
  simp [sliceBytes]

theorem get_sliceBytes {α : Type} (m : Mem α) (p l i : Nat)
    (h : i < (sliceBytes m p l).length) :
    (sliceBytes m p l).get ⟨i, h⟩ = m (p + i) := by
  simpa using getElem_sliceBytes m p l i h

/-- Two regions of the same memory have equal contents exactly when their
lengths agree and they agree element-wise. -/
theorem sliceBytes_eq_iff {α : Type} (m : Mem α) (p1 l1 p2 l2 : Nat) :
    sliceBytes m p1 l1 = sliceBytes m p2 l2 ↔
      (l1 = l2 ∧ ∀ i, i < l1 → m (p1 + i) = m (p2 + i)) := by
  constructor
  · intro h
    have hlen : l1 = l2 := by
      have := congrArg List.length h
      simpa [length_sliceBytes] using this
    refine ⟨hlen, ?_⟩
    intro i hi
    have h1 : i < (sliceBytes m p1 l1).length := by
      simpa [length_sliceBytes] using hi
    have h2 : i < (sliceBytes m p2 l2).length := by
      simpa [length_sliceBytes, ← hlen] using hi
    calc m (p1 + i) = (sliceBytes m p1 l1)[i] :=
          (getElem_sliceBytes m p1 l1 i h1).symm
      _ = (sliceBytes m p2 l2)[i] := by
          exact List.getElem_of_eq h h1
      _ = m (p2 + i) := getElem_sliceBytes m p2 l2 i h2
  · rintro ⟨hlen, hpt⟩
    subst hlen
    apply List.ext_getElem
    · simp [length_sliceBytes]
    · intro i h1 h2
      rw [getElem_sliceBytes m p1 l1 i h1, getElem_sliceBytes m p2 l1 i h2]
      exact hpt i (by simpa [length_sliceBytes] using h1)

/-- Storing `v` at offset `i` of the region `[p, p + l)` updates the
region's contents to `(original contents).set i v` and touches nothing
else. -/
theorem sliceBytes_writeElem {α : Type} (m : Mem α) (p l i : Nat) (v : α) :
    sliceBytes (writeElem m (p + i) v) p l = (sliceBytes m p l).set i v := by
  apply List.ext_getElem
  · simp [length_sliceBytes]
  · intro j h1 h2
    rw [getElem_sliceBytes _ p l j h1]
    rw [List.getElem_set]
    by_cases hij : i = j
    · subst hij
      simp [writeElem]
    · have hne : p + j ≠ p + i := by
        intro hc
        exact hij (Nat.add_left_cancel hc).symm
      simp only [if_neg hij]
      rw [getElem_sliceBytes m p l j (by simpa using h2)]
      simp [writeElem, hne]

/-- Frame: a store at address `a` leaves every other address unchanged. -/
theorem writeElem_frame {α : Type} (m : Mem α) (a x : Nat) (v : α)
    (h : x ≠ a) : writeElem m a v x = m x := by
  simp [writeElem, h]

/-- Membership in the macro's literal length list, characterised
arithmetically. -/
theorem mem_supportedArrayLens (n : Nat) :
    n ∈ supportedArrayLens ↔
      (n ≤ 32 ∨ n ∈ [48, 64, 96, 128, 256, 512, 1024, 2048, 4096]) := by
  simp only [supportedArrayLens, List.mem_cons, List.not_mem_nil, or_false]
  omega

/-! ### Claim theorems -/

/-- Claim C1: converting any native contiguous view (`&[T]`, `&mut [T]`),
any native text value (`&str`, `&mut str`), or any native growable buffer
(`Vec<T>`, `String`) into its flat record and back yields the same base
address, the same length (and capacity, for buffers), and hence — as the
final two conjuncts make explicit — element-wise identical contents in
every memory; for text values the reconstructed byte range is identical,
so the result is byte-identical. -/
theorem claim_C1_roundtrip :
    (∀ (α : Type) (s : RustSlice α),
        SharedSlice.toRust (SharedSlice.fromRust s) = s) ∧
    (∀ (α : Type) (s : RustSlice α),
        UniqueSlice.toRust (UniqueSlice.fromRust s) = s) ∧
    (∀ s : RustStr, SharedStr.toRust (SharedStr.fromRust s) = s) ∧
    (∀ s : RustStr, UniqueStr.toRust (UniqueStr.fromRust s) = s) ∧
    (∀ (α : Type) (v : RustVec α),
        StableVec.toVec (StableVec.fromVec v) = v) ∧
    (∀ s : RustString,
        StableString.toString (StableString.fromString s) = s) ∧
    (∀ (α : Type) (m : Mem α) (s : RustSlice α),
        sliceBytes m (SharedSlice.toRust (SharedSlice.fromRust s)).ptr
            (SharedSlice.toRust (SharedSlice.fromRust s)).len =
          sliceBytes m s.ptr s.len) ∧
    (∀ (m : Mem Nat) (s : RustStr),
        sliceBytes m (SharedStr.toRust (SharedStr.fromRust s)).ptr
            (SharedStr.toRust (SharedStr.fromRust s)).len =
          sliceBytes m s.ptr s.len) := by
  refine ⟨?_, ?_, ?_, ?_, ?_, ?_, ?_, ?_⟩ <;> intros <;> rfl

/-- Claim C2 (code evaluated at the failing input): the source gives
`UniqueStr` both `impl Copy` and `impl Clone` (returning `*self`), so a
live unique text-view record is freely duplicated by safe code into a
second live record with bitwise-identical address and length — the
concrete duplicate of the record at address 100 still points at 100. This
contradicts the exclusivity the claim (and the type's own documented
unique-borrow invariant) demands. -/
theorem claim_C2_uniqueStr_copyable :
    hasCopyImpl RecordKind.uniqueStr = true ∧
    hasCloneImpl RecordKind.uniqueStr = true ∧
    (∀ u : UniqueStr, UniqueStr.cloneRec u = u) ∧
    (UniqueStr.cloneRec ⟨100, 5⟩).ptr = 100 ∧
    hasCopyImpl RecordKind.uniqueSlice = false := by
  exact ⟨rfl, rfl, fun _ => rfl, rfl, rfl⟩

/-- Claim C3, counterexample: `u8` satisfies `StableLayout`, yet
`[u8; 33]` does not — `33` is not among the lengths enumerated by
`impl_unsafe_marker_for_array!`, so no impl exists for it. -/
theorem claim_C3_counterexample :
    stableLayout RustTy.u8 = true ∧
    stableLayout (RustTy.array RustTy.u8 33) = false := by
  decide

/-- Claim C3 as amended: `[T; n]` satisfies `StableLayout` exactly when
`n` is one of the supported lengths (0–32, 48, 64, 96, 128, 256, 512,
1024, 2048, 4096) AND `T` satisfies it; for every other `n` the array
type is never admissible, whatever `T` is. -/
theorem claim_C3_array_rule (t : RustTy) (n : Nat) :
    stableLayout (RustTy.array t n) =
      (decide (n ≤ 32 ∨ n ∈ [48, 64, 96, 128, 256, 512, 1024, 2048, 4096])
        && stableLayout t) := by
  show (supportedArrayLens.elem n && stableLayout t) = _
  congr 1
  rw [List.elem_eq_mem]
  exact decide_eq_decide.mpr (mem_supportedArrayLens n)

/-- Claim C4: every record kind's default has length 0 and a non-null
sentinel address (the dangling pointer, whose address is the element
alignment, positive for every Rust type); the owning kinds additionally
have capacity 0; and the default's dereferenced view is empty in every
memory, so the sentinel is never dereferenced. -/
theorem claim_C4_default_empty (α : Type) (align : Nat) (h : 0 < align) :
    ((SharedSlice.defaultRec α align).len = 0 ∧
      (SharedSlice.defaultRec α align).ptr ≠ 0) ∧
    ((UniqueSlice.defaultRec α align).len = 0 ∧
      (UniqueSlice.defaultRec α align).ptr ≠ 0) ∧
    (SharedStr.defaultRec.len = 0 ∧ SharedStr.defaultRec.ptr ≠ 0) ∧
    (UniqueStr.defaultRec.len = 0 ∧ UniqueStr.defaultRec.ptr ≠ 0) ∧
    ((StableVec.defaultRec α align).len = 0 ∧
      (StableVec.defaultRec α align).cap = 0 ∧
      (StableVec.defaultRec α align).ptr ≠ 0) ∧
    (StableString.defaultRec.len = 0 ∧ StableString.defaultRec.cap = 0 ∧
      StableString.defaultRec.ptr ≠ 0) ∧
    (∀ m : Mem α,
      SharedSlice.viewList m (SharedSlice.defaultRec α align) = []) ∧
    (∀ m : Mem α,
      StableVec.viewList m (StableVec.defaultRec α align) = []) := by
  have hne : align ≠ 0 := Nat.pos_iff_ne_zero.mp h
  refine ⟨⟨rfl, hne⟩, ⟨rfl, hne⟩, ⟨rfl, by decide⟩, ⟨rfl, by decide⟩,
    ⟨rfl, rfl, hne⟩, ⟨rfl, rfl, by decide⟩, ?_, ?_⟩ <;>
    intro m <;> rfl

/-- Witness for C4 at the concrete alignment 4 (e.g. `T = i32`). -/
theorem claim_C4_default_empty_witness :
    0 < 4 ∧
    (StableVec.defaultRec Nat 4).len = 0 ∧
    (StableVec.defaultRec Nat 4).cap = 0 ∧
    (StableVec.defaultRec Nat 4).ptr ≠ 0 ∧
    (SharedSlice.defaultRec Nat 4).len = 0 := by
  have h := claim_C4_default_empty Nat 4 (by decide)
  exact ⟨by decide, h.2.2.2.2.1.1, h.2.2.2.2.1.2.1, h.2.2.2.2.1.2.2,
    h.1.1⟩

/-- Claim C5: for every record kind, test-style equality (comparison of
the dereferenced views, as the crate's test suite does) holds exactly
when the views agree in length and element-wise; it is not address
comparison — the final conjunct exhibits two `SharedSlice` records with
different base addresses that nevertheless compare equal. -/
theorem claim_C5_test_equality :
    (∀ (α : Type) (m : Mem α) (c1 c2 : SharedSlice α),
        SharedSlice.testEq m c1 c2 ↔
          (c1.len = c2.len ∧
            ∀ i, i < c1.len → m (c1.ptr + i) = m (c2.ptr + i))) ∧
    (∀ (α : Type) (m : Mem α) (u1 u2 : UniqueSlice α),
        UniqueSlice.testEq m u1 u2 ↔
          (u1.len = u2.len ∧
            ∀ i, i < u1.len → m (u1.ptr + i) = m (u2.ptr + i))) ∧
    (∀ (m : Mem Nat) (c1 c2 : SharedStr),
        SharedStr.testEq m c1 c2 ↔
          (c1.len = c2.len ∧
            ∀ i, i < c1.len → m (c1.ptr + i) = m (c2.ptr + i))) ∧
    (∀ (m : Mem Nat) (u1 u2 : UniqueStr),
        UniqueStr.testEq m u1 u2 ↔
          (u1.len = u2.len ∧
            ∀ i, i < u1.len → m (u1.ptr + i) = m (u2.ptr + i))) ∧
    (∀ (α : Type) (m : Mem α) (v1 v2 : StableVec α),
        StableVec.testEq m v1 v2 ↔
          (v1.len = v2.len ∧
            ∀ i, i < v1.len → m (v1.ptr + i) = m (v2.ptr + i))) ∧
    (∀ (m : Mem Nat) (s1 s2 : StableString),
        StableString.testEq m s1 s2 ↔
          (s1.len = s2.len ∧
            ∀ i, i < s1.len → m (s1.ptr + i) = m (s2.ptr + i))) ∧
    (∃ (m : Mem Nat) (c1 c2 : SharedSlice Nat),
        c1.ptr ≠ c2.ptr ∧ SharedSlice.testEq m c1 c2) := by
  refine ⟨?_, ?_, ?_, ?_, ?_, ?_, ?_⟩
  · intro α m c1 c2
    simpa [SharedSlice.testEq, SharedSlice.viewList,
      SharedSlice.derefSlice] using
      sliceBytes_eq_iff m c1.ptr c1.len c2.ptr c2.len
  · intro α m u1 u2
    simpa [UniqueSlice.testEq, UniqueSlice.viewList,
      UniqueSlice.derefSlice] using
      sliceBytes_eq_iff m u1.ptr u1.len u2.ptr u2.len
  · intro m c1 c2
    simpa [SharedStr.testEq, SharedStr.viewList, SharedStr.derefStr] using
      sliceBytes_eq_iff m c1.ptr c1.len c2.ptr c2.len
  · intro m u1 u2
    simpa [UniqueStr.testEq, UniqueStr.viewList, UniqueStr.derefStr] using
      sliceBytes_eq_iff m u1.ptr u1.len u2.ptr u2.len
  · intro α m v1 v2
    simpa [StableVec.testEq, StableVec.viewList,
      StableVec.derefSlice] using
      sliceBytes_eq_iff m v1.ptr v1.len v2.ptr v2.len
  · intro m s1 s2
    simpa [StableString.testEq, StableString.viewList,
      StableString.derefStr] using
      sliceBytes_eq_iff m s1.ptr s1.len s2.ptr s2.len
  · exact ⟨fun _ => 0, ⟨0, 1⟩, ⟨5, 1⟩, by decide, rfl⟩

/-- Claim C6: `StableVec::from(Vec)` / `StableString::from(String)`
capture exactly the buffer's base address, logical length and capacity,
and the reverse conversion reconstructs a buffer whose address, length,
capacity — and, in every memory, elements — equal the original's. -/
theorem claim_C6_owning_capture :
    (∀ (α : Type) (v : RustVec α),
        (StableVec.fromVec v).ptr = v.ptr ∧
        (StableVec.fromVec v).len = v.len ∧
        (StableVec.fromVec v).cap = v.cap ∧
        StableVec.toVec (StableVec.fromVec v) = v ∧
        ∀ m : Mem α,
          sliceBytes m (StableVec.toVec (StableVec.fromVec v)).ptr
              (StableVec.toVec (StableVec.fromVec v)).len =
            sliceBytes m v.ptr v.len) ∧
    (∀ s : RustString,
        (StableString.fromString s).ptr = s.ptr ∧
        (StableString.fromString s).len = s.len ∧
        (StableString.fromString s).cap = s.cap ∧
        StableString.toString (StableString.fromString s) = s ∧
        ∀ m : Mem Nat,
          sliceBytes m
              (StableString.toString (StableString.fromString s)).ptr
              (StableString.toString (StableString.fromString s)).len =
            sliceBytes m s.ptr s.len) := by
  exact ⟨fun α v => ⟨rfl, rfl, rfl, rfl, fun m => rfl⟩,
    fun s => ⟨rfl, rfl, rfl, rfl, fun m => rfl⟩⟩

/-- Claim C7: the `ManuallyDrop`-wrapped buffer consumed by
`From<Vec<T>>` / `From<String>` frees nothing; a discarded `StableVec` /
`StableString` (no `Drop` impl) frees nothing, so the allocation leaks
deterministically; and the full transfer–reconstruct–drop sequence frees
exactly what dropping the original buffer once would free, with no
address freed twice. -/
theorem claim_C7_leak_no_double_free :
    (∀ (α : Type) (v : RustVec α),
        manuallyDropVecFrees v = [] ∧
        StableVec.dropFrees (StableVec.fromVec v) = [] ∧
        StableVec.transferSeqFrees v = RustVec.dropFrees v ∧
        (StableVec.transferSeqFrees v).Nodup) ∧
    (∀ s : RustString,
        manuallyDropStringFrees s = [] ∧
        StableString.dropFrees (StableString.fromString s) = [] ∧
        StableString.transferSeqFrees s = RustString.dropFrees s ∧
        (StableString.transferSeqFrees s).Nodup) := by
  constructor
  · intro α v
    refine ⟨rfl, rfl, rfl, ?_⟩
    by_cases h : v.cap = 0 <;>
      simp [StableVec.transferSeqFrees, manuallyDropVecFrees,
        RustVec.dropFrees, StableVec.toVec, StableVec.fromVec, h]
  · intro s
    refine ⟨rfl, rfl, rfl, ?_⟩
    by_cases h : s.cap = 0 <;>
      simp [StableString.transferSeqFrees, manuallyDropStringFrees,
        RustString.dropFrees, StableString.toString,
        StableString.fromString, h]

/-- Claim C8: for every record kind, the non-consuming read access
(`Deref`) denotes exactly the view produced by the consuming
convert-to-native operation — identical base address and length (for the
owning kinds, the reconstructed buffer's deref view) — and therefore, in
every memory, identical elements at every index. -/
theorem claim_C8_deref_eq_reconstruction :
    (∀ (α : Type) (c : SharedSlice α),
        SharedSlice.derefSlice c = SharedSlice.toRust c) ∧
    (∀ (α : Type) (u : UniqueSlice α),
        UniqueSlice.derefSlice u = UniqueSlice.toRust u) ∧
    (∀ c : SharedStr, SharedStr.derefStr c = SharedStr.toRust c) ∧
    (∀ u : UniqueStr, UniqueStr.derefStr u = UniqueStr.toRust u) ∧
    (∀ (α : Type) (sv : StableVec α),
        StableVec.derefSlice sv = RustVec.asSlice (StableVec.toVec sv)) ∧
    (∀ sv : StableString,
        StableString.derefStr sv =
          RustString.asStr (StableString.toString sv)) ∧
    (∀ (α : Type) (m : Mem α) (c : SharedSlice α),
        SharedSlice.viewList m c =
          sliceBytes m (SharedSlice.toRust c).ptr
            (SharedSlice.toRust c).len) ∧
    (∀ (α : Type) (m : Mem α) (sv : StableVec α),
        StableVec.viewList m sv =
          sliceBytes m (RustVec.asSlice (StableVec.toVec sv)).ptr
            (RustVec.asSlice (StableVec.toVec sv)).len) := by
  refine ⟨?_, ?_, ?_, ?_, ?_, ?_, ?_, ?_⟩ <;> intros <;> rfl

/-- Claim C9: an in-bounds element store through `DerefMut` of a
unique-view or owning record changes only the pointed-to element: the
record (address, length, capacity) is returned unchanged, every other
memory address is untouched, converting the record to its native form
afterwards sees the old view with index `i` set to the new value, the
written slot itself holds the new value, and re-deriving the record from
the converted native form gives back the identical record. -/
theorem claim_C9_mutation_frame :
    (∀ (α : Type) (m : Mem α) (u : UniqueSlice α) (i : Nat) (v : α),
      i < u.len →
        (u.writeAt m i v).1 = u ∧
        (∀ a, a ≠ u.ptr + i → (u.writeAt m i v).2 a = m a) ∧
        sliceBytes (u.writeAt m i v).2 (UniqueSlice.toRust u).ptr
            (UniqueSlice.toRust u).len =
          (sliceBytes m u.ptr u.len).set i v ∧
        (u.writeAt m i v).2 (u.ptr + i) = v ∧
        UniqueSlice.fromRust (UniqueSlice.toRust u) = u) ∧
    (∀ (m : Mem Nat) (u : UniqueStr) (i b : Nat),
      i < u.len →
        (u.writeAt m i b).1 = u ∧
        (∀ a, a ≠ u.ptr + i → (u.writeAt m i b).2 a = m a) ∧
        sliceBytes (u.writeAt m i b).2 (UniqueStr.toRust u).ptr
            (UniqueStr.toRust u).len =
          (sliceBytes m u.ptr u.len).set i b ∧
        (u.writeAt m i b).2 (u.ptr + i) = b ∧
        UniqueStr.fromRust (UniqueStr.toRust u) = u) ∧
    (∀ (α : Type) (m : Mem α) (sv : StableVec α) (i : Nat) (v : α),
      i < sv.len →
        (sv.writeAt m i v).1 = sv ∧
        (sv.writeAt m i v).1.cap = sv.cap ∧
        (∀ a, a ≠ sv.ptr + i → (sv.writeAt m i v).2 a = m a) ∧
        sliceBytes (sv.writeAt m i v).2 (StableVec.toVec sv).ptr
            (StableVec.toVec sv).len =
          (sliceBytes m sv.ptr sv.len).set i v ∧
        (sv.writeAt m i v).2 (sv.ptr + i) = v ∧
        StableVec.fromVec (StableVec.toVec sv) = sv) ∧
    (∀ (m : Mem Nat) (ss : StableString) (i b : Nat),
      i < ss.len →
        (ss.writeAt m i b).1 = ss ∧
        (ss.writeAt m i b).1.cap = ss.cap ∧
        (∀ a, a ≠ ss.ptr + i → (ss.writeAt m i b).2 a = m a) ∧
        sliceBytes (ss.writeAt m i b).2 (StableString.toString ss).ptr
            (StableString.toString ss).len =
          (sliceBytes m ss.ptr ss.len).set i b ∧
        (ss.writeAt m i b).2 (ss.ptr + i) = b ∧
        StableString.fromString (StableString.toString ss) = ss) := by
  refine ⟨?_, ?_, ?_, ?_⟩
  · intro α m u i v _
    refine ⟨rfl, ?_, ?_, ?_, rfl⟩
    · intro a ha
      exact writeElem_frame m (u.ptr + i) a v ha
    · exact sliceBytes_writeElem m u.ptr u.len i v
    · simp [UniqueSlice.writeAt, UniqueSlice.derefMutSlice, writeElem]
  · intro m u i b _
    refine ⟨rfl, ?_, ?_, ?_, rfl⟩
    · intro a ha
      exact writeElem_frame m (u.ptr + i) a b ha
    · exact sliceBytes_writeElem m u.ptr u.len i b
    · simp [UniqueStr.writeAt, UniqueStr.derefMutStr, writeElem]
  · intro α m sv i v _
    refine ⟨rfl, rfl, ?_, ?_, ?_, rfl⟩
    · intro a ha
      exact writeElem_frame m (sv.ptr + i) a v ha
    · exact sliceBytes_writeElem m sv.ptr sv.len i v
    · simp [StableVec.writeAt, StableVec.derefMutSlice, writeElem]
  · intro m ss i b _
    refine ⟨rfl, rfl, ?_, ?_, ?_, rfl⟩
    · intro a ha
      exact writeElem_frame m (ss.ptr + i) a b ha
    · exact sliceBytes_writeElem m ss.ptr ss.len i b
    · simp [StableString.writeAt, StableString.derefMutStr, writeElem]

/-- Witness for C9: writing `9` at index `1` of a 3-element unique slice
based at address `10` — the bound holds and the written slot reads back
`9`. -/
theorem claim_C9_mutation_frame_witness :
    1 < (3 : Nat) ∧
    ((⟨10, 3⟩ : UniqueSlice Nat).writeAt (fun _ => 0) 1 9).2 (10 + 1) =
      9 := by
  have h := claim_C9_mutation_frame.1 Nat (fun _ => 0) ⟨10, 3⟩ 1 9
    (by decide)
  exact ⟨by decide, h.2.2.2.1⟩

/-- Claim C10: the shared record kinds are freely duplicable — both have
`impl Copy` and `impl Clone` in the source, `clone` is `*self` so the
duplicate is bitwise identical (same address, same length) and denotes
the same view in every memory. The `SharedSlice` clone is defined for
every element type `α` with no constraint whatsoever on `α` (the source
impl bounds `T` only by `StableLayout`, never by `Clone`). -/
theorem claim_C10_shared_duplicable :
    hasCopyImpl RecordKind.sharedSlice = true ∧
    hasCloneImpl RecordKind.sharedSlice = true ∧
    hasCopyImpl RecordKind.sharedStr = true ∧
    hasCloneImpl RecordKind.sharedStr = true ∧
    (∀ (α : Type) (c : SharedSlice α),
        SharedSlice.cloneRec c = c ∧
        (SharedSlice.cloneRec c).ptr = c.ptr ∧
        (SharedSlice.cloneRec c).len = c.len ∧
        ∀ m : Mem α,
          SharedSlice.viewList m (SharedSlice.cloneRec c) =
            SharedSlice.viewList m c) ∧
    (∀ c : SharedStr,
        SharedStr.cloneRec c = c ∧
        (SharedStr.cloneRec c).ptr = c.ptr ∧
        (SharedStr.cloneRec c).len = c.len ∧
        ∀ m : Mem Nat,
          SharedStr.viewList m (SharedStr.cloneRec c) =
            SharedStr.viewList m c) := by
  exact ⟨rfl, rfl, rfl, rfl,
    fun α c => ⟨rfl, rfl, rfl, fun m => rfl⟩,
    fun c => ⟨rfl, rfl, rfl, fun m => rfl⟩⟩

end Chromium
